import Mathlib

/-!
Verification development for the Vercel-analytics CSV query tool
(src/tools/get-vercel-top-pages.ts).

The TypeScript source is shallowly embedded below. JavaScript numbers are
modelled as exact rationals (float rounding and double range are idealised;
no value of interest here approaches them, and NaN cannot reach the numeric
fields because the input schema validates numbers). File-system effects are
modelled by an explicit record of outcomes, and thrown JavaScript values by
an error type carried in Except. Strings are compared and transformed via
their character lists so that every definition stays kernel-computable.
-/

/-! Models of JavaScript primitives used by the source. -/

/-- Code of a character, used to model JavaScript string comparison
(UTF-16 code-unit order; it agrees with code-point order on every string
appearing in this development). -/
def charCode (c : Char) : Nat := c.toNat

/-- Comparison key of a string: its list of character codes. JavaScript
compares strings lexicographically by code unit, which is the
lexicographic order on these lists. -/
def strKey (s : String) : List Nat := s.data.map charCode

/-- Model of the JavaScript String.prototype.endsWith test. -/
def strEndsWith (s suffix : String) : Bool := List.isSuffixOf suffix.data s.data

/-- Model of the JavaScript String.prototype.startsWith test
(case-sensitive). -/
def strStartsWith (s p : String) : Bool := List.isPrefixOf p.data s.data

/-- Model of the JavaScript String.prototype.includes substring test. -/
def strContainsSub (s sub : String) : Bool :=
  s.data.tails.any (fun t => List.isPrefixOf sub.data t)

/-- Model of String.prototype.toLowerCase, restricted to ASCII (the only
characters the tool's data and filters use). -/
def jsToLower (s : String) : String := String.mk (s.data.map Char.toLower)

/-- White-space characters recognised by String.prototype.trim, restricted
to the ASCII range. -/
def isJsWhitespace (c : Char) : Bool :=
  c == ' ' || c == '\t' || c == '\n' || c == '\r' || c == '\x0b' || c == '\x0c'

/-- Drop white space from both ends of a character list. -/
def trimChars (cs : List Char) : List Char :=
  ((cs.dropWhile isJsWhitespace).reverse.dropWhile isJsWhitespace).reverse

/-- Model of String.prototype.trim. -/
def jsTrim (s : String) : String := String.mk (trimChars s.data)

/-- Model of value.replace applied with the global comma pattern: removes
every comma of the string. -/
def stripCommas (s : String) : String := String.mk (s.data.filter (fun c => c != ','))

/-- Truthiness of an optional string argument: in JavaScript, undefined and
the empty string are falsy, every other string is truthy. -/
def truthyStr (o : Option String) : Bool := o.getD "" != ""

/-- Truthiness of an optional boolean argument: undefined and false are
falsy. -/
def truthyBool (o : Option Bool) : Bool := o.getD false

/-- Model of the JavaScript expression s short-circuit-or d for an optional
string s: the default replaces undefined and the empty string. -/
def jsOrStr (o : Option String) (d : String) : String :=
  if truthyStr o then o.getD "" else d

/-- Model of the JavaScript expression n short-circuit-or d for an optional
number n: the default replaces undefined and zero (NaN cannot occur, the
schema validates numbers). -/
def jsOrNum (o : Option ℚ) (d : ℚ) : ℚ :=
  match o with
  | none => d
  | some x => if x = 0 then d else x

/-- Model of Math.max on two (non-NaN) numbers. -/
def jsMax (a b : ℚ) : ℚ := if a ≤ b then b else a

/-- Model of Math.min on two (non-NaN) numbers. -/
def jsMin (a b : ℚ) : ℚ := if a ≤ b then a else b

/-- Addition of exact rationals, written on numerators and denominators so
that it stays kernel-computable; it agrees with the addition of ℚ
(theorem qAdd_eq below). -/
def qAdd (a b : ℚ) : ℚ := mkRat (a.num * b.den + b.num * a.den) (a.den * b.den)

/-- Subtraction of exact rationals, kernel-computable; agrees with the
subtraction of ℚ (theorem qSub_eq below). -/
def qSub (a b : ℚ) : ℚ := mkRat (a.num * b.den - b.num * a.den) (a.den * b.den)

/-- Negation of exact rationals, kernel-computable; agrees with the
negation of ℚ (theorem qNeg_eq below). -/
def qNeg (a : ℚ) : ℚ := mkRat (-a.num) a.den

/-- Truncation of a non-negative rational to a natural number, modelling
how Array.prototype.slice converts its end argument (truncation towards
zero, which is the floor for the non-negative values reaching it here). -/
def qToCount (q : ℚ) : Nat := q.num.toNat / q.den

/-- Model of Node's path.basename on POSIX paths: trailing slashes are
dropped, then the segment after the last slash is returned. -/
def pathBasename (s : String) : String :=
  let cs := s.data
  let noTrail := (cs.reverse.dropWhile (fun c => c == '/')).reverse
  if noTrail.isEmpty then (if cs.isEmpty then "" else "/")
  else String.mk ((noTrail.reverse.takeWhile (fun c => c != '/')).reverse)

/-- Insert a thousands-separator comma before every third digit, working on
the reversed digit list; i counts digits already emitted. -/
def groupRev (i : Nat) : List Char → List Char
  | [] => []
  | c :: rest =>
    if 0 < i ∧ i % 3 = 0 then ',' :: c :: groupRev (i + 1) rest
    else c :: groupRev (i + 1) rest

/-- Digits of a natural number with en-US thousands grouping. -/
def natGrouped (n : Nat) : String :=
  String.mk ((groupRev 0 (Nat.repr n).data.reverse).reverse)

/-- Pad the decimal representation of a number below 1000 to three digits. -/
def padThree (f : Nat) : List Char :=
  let d := (Nat.repr f).data
  List.replicate (3 - d.length) '0' ++ d

/-- Drop trailing zero characters. -/
def stripTrailingZeros (cs : List Char) : List Char :=
  (cs.reverse.dropWhile (fun c => c == '0')).reverse

/-- Model of Number.prototype.toLocaleString (en-US defaults) on a
non-negative rational: round to at most three fraction digits (half away
from zero) and group the integer part by thousands. -/
def qToLocaleStringNonneg (q : ℚ) : String :=
  let scaled : Nat := (q.num.toNat * 2000 + q.den) / (2 * q.den)
  let ipart := scaled / 1000
  let fpart := scaled % 1000
  if fpart = 0 then natGrouped ipart
  else natGrouped ipart ++ "." ++ String.mk (stripTrailingZeros (padThree fpart))

/-- Model of Number.prototype.toLocaleString (en-US defaults). -/
def jsNumToLocaleString (q : ℚ) : String :=
  if q < 0 then "-" ++ qToLocaleStringNonneg (qNeg q) else qToLocaleStringNonneg q

/-! Model of the JavaScript Number() conversion on strings, following the
StringNumericLiteral grammar: surrounding white space is trimmed, the empty
remainder is 0, a sign may precede Infinity or a decimal literal (digits
with optional fraction and exponent), and an unsigned hexadecimal, octal or
binary literal is accepted; everything else is NaN. Values are exact
rationals. -/

/-- Possible results of the Number() conversion. -/
inductive JsNum where
  | nan : JsNum
  | posInf : JsNum
  | negInf : JsNum
  | finite (q : ℚ) : JsNum
deriving DecidableEq

/-- Negation of a Number() result, for a leading minus sign. -/
def jsNegNum : JsNum → JsNum
  | JsNum.nan => JsNum.nan
  | JsNum.posInf => JsNum.negInf
  | JsNum.negInf => JsNum.posInf
  | JsNum.finite q => JsNum.finite (qNeg q)

/-- Numeric value of a list of decimal digit characters. -/
def digitsVal (ds : List Char) : Nat :=
  ds.foldl (fun n c => n * 10 + (c.toNat - 48)) 0

/-- Hexadecimal digit test, by character code. -/
def isHexDigitChar (c : Char) : Bool :=
  c.isDigit || (97 ≤ c.toNat && c.toNat ≤ 102) || (65 ≤ c.toNat && c.toNat ≤ 70)

/-- Octal digit test. -/
def isOctalDigitChar (c : Char) : Bool := 48 ≤ c.toNat && c.toNat ≤ 55

/-- Binary digit test. -/
def isBinaryDigitChar (c : Char) : Bool := c == '0' || c == '1'

/-- Value of one digit character in any radix up to 16. -/
def radixDigitVal (c : Char) : Nat :=
  if c.toNat ≤ 57 then c.toNat - 48
  else if c.toNat ≤ 70 then c.toNat - 55
  else c.toNat - 87

/-- Numeric value of a digit list in the given radix. -/
def radixVal (r : Nat) (ds : List Char) : Nat :=
  ds.foldl (fun n c => n * r + radixDigitVal c) 0

/-- Exponent digits of a numeric literal: a non-empty run of decimal
digits. -/
def parseExpDigits (ds : List Char) : Option Nat :=
  if !ds.isEmpty && ds.all Char.isDigit then some (digitsVal ds) else none

/-- Signed exponent of a numeric literal. -/
def parseSignedExp : List Char → Option Int
  | '+' :: ds => (parseExpDigits ds).map (fun n => (n : Int))
  | '-' :: ds => (parseExpDigits ds).map (fun n => -(n : Int))
  | ds => (parseExpDigits ds).map (fun n => (n : Int))

/-- Exponent part of a decimal literal: either nothing remains, or an
e/E followed by a signed digit run. -/
def parseExpPart : List Char → Option Int
  | [] => some 0
  | c :: rest => if c == 'e' || c == 'E' then parseSignedExp rest else none

/-- Exact value of a decimal literal with integer digits ip, fraction
digits fp and exponent e: the combined digits over the fraction power,
scaled by the power of ten of the exponent. -/
def decLitVal (ip fp : List Char) (e : Int) : ℚ :=
  match e with
  | Int.ofNat k =>
    mkRat ((digitsVal ip * 10 ^ fp.length + digitsVal fp) * 10 ^ k) (10 ^ fp.length)
  | Int.negSucc k =>
    mkRat (digitsVal ip * 10 ^ fp.length + digitsVal fp) (10 ^ fp.length * 10 ^ (k + 1))

/-- Unsigned decimal literal: digits, an optional point with digits, and an
optional exponent; at least one digit must appear. -/
def parseDecLit (cs : List Char) : Option ℚ :=
  match cs.dropWhile Char.isDigit with
  | '.' :: rest2 =>
    if (cs.takeWhile Char.isDigit).isEmpty && (rest2.takeWhile Char.isDigit).isEmpty then none
    else (parseExpPart (rest2.dropWhile Char.isDigit)).map
      (decLitVal (cs.takeWhile Char.isDigit) (rest2.takeWhile Char.isDigit))
  | rest =>
    if (cs.takeWhile Char.isDigit).isEmpty then none
    else (parseExpPart rest).map (decLitVal (cs.takeWhile Char.isDigit) [])

/-- Unsigned non-decimal integer literal: 0x, 0o or 0b followed by a
non-empty digit run of the matching radix. No sign may precede these. -/
def parseRadixLit : List Char → Option ℚ
  | '0' :: c :: ds =>
    if c == 'x' || c == 'X' then
      if !ds.isEmpty && ds.all isHexDigitChar then some (mkRat (radixVal 16 ds) 1) else none
    else if c == 'o' || c == 'O' then
      if !ds.isEmpty && ds.all isOctalDigitChar then some (mkRat (radixVal 8 ds) 1) else none
    else if c == 'b' || c == 'B' then
      if !ds.isEmpty && ds.all isBinaryDigitChar then some (mkRat (radixVal 2 ds) 1) else none
    else none
  | _ => none

/-- Part of a numeric string that may follow a sign: Infinity or a decimal
literal. -/
def jsUnsignedDecSide (cs : List Char) : JsNum :=
  if cs = "Infinity".data then JsNum.posInf
  else
    match parseDecLit cs with
    | some q => JsNum.finite q
    | none => JsNum.nan

/-- Number() conversion of an already trimmed character list. -/
def jsNumberOfTrimmed : List Char → JsNum
  | [] => JsNum.finite 0
  | c :: rest =>
    if c == '+' then jsUnsignedDecSide rest
    else if c == '-' then jsNegNum (jsUnsignedDecSide rest)
    else
      match parseRadixLit (c :: rest) with
      | some q => JsNum.finite q
      | none => jsUnsignedDecSide (c :: rest)

/-- Model of the JavaScript Number() conversion on strings. -/
def jsNumber (s : String) : JsNum := jsNumberOfTrimmed (trimChars s.data)

/-! Embedding of the source file src/tools/get-vercel-top-pages.ts. -/

/-- The thrown JavaScript values the tool can observe: an Error object
carrying a message, or any non-Error value. -/
inductive JsThrown where
  | errObj (message : String) : JsThrown
  | nonError : JsThrown
deriving DecidableEq

/-- Message extraction at the catch boundary: error instanceof Error gives
error.message, anything else the text Unknown error. -/
def jsThrownMessage : JsThrown → String
  | JsThrown.errObj m => m
  | JsThrown.nonError => "Unknown error"

/-- Outcomes of the two file-system operations the tool performs. readdir
models listing the data directory DATA_DIR; readFile models reading a file
of that directory by its base name (the source joins DATA_DIR with the
name before reading). -/
structure Fs where
  readdir : Except JsThrown (List String)
  readFile : String → Except JsThrown String

/-- A parsed report row, from the source type TopPageRow. -/
structure TopPageRow where
  item : String
  visitors : ℚ
  total : ℚ
deriving DecidableEq

/-- The DEFAULT_FILE constant of the source. -/
def DEFAULT_FILE : String := "Top Pages - Nov 13 '25, 11pm - Feb 13 '26.csv"

/-- The REPORT_LABELS constant of the source. -/
def REPORT_LABELS : List String :=
  ["Top Pages", "Top Referrers", "Top Countries", "Top Browsers", "Top Devices",
   "Top Operating Systems"]

/-- The ReportType union of the source. -/
inductive ReportType where
  | pages | referrers | countries | browsers | devices | operatingSystems
deriving DecidableEq

/-- String value of a ReportType, as it appears in the schema and in error
messages. -/
def reportTypeName : ReportType → String
  | ReportType.pages => "pages"
  | ReportType.referrers => "referrers"
  | ReportType.countries => "countries"
  | ReportType.browsers => "browsers"
  | ReportType.devices => "devices"
  | ReportType.operatingSystems => "operating-systems"

/-- Embedding of toReportLabel. -/
def toReportLabel : ReportType → String
  | ReportType.pages => "Top Pages"
  | ReportType.referrers => "Top Referrers"
  | ReportType.countries => "Top Countries"
  | ReportType.browsers => "Top Browsers"
  | ReportType.devices => "Top Devices"
  | ReportType.operatingSystems => "Top Operating Systems"

/-- Embedding of inferReportLabel. -/
def inferReportLabel (fileName : String) : String :=
  match REPORT_LABELS.find? (fun label => strStartsWith fileName (label ++ " - ")) with
  | some label => label
  | none => "Unknown"

/-- First replace of extractDateRange: strip a case-insensitive .csv
suffix. -/
def stripCsvExt (s : String) : String :=
  if strEndsWith (jsToLower s) ".csv" then String.mk (s.data.take (s.data.length - 4))
  else s

/-- Second replace of extractDateRange, for the anchored pattern Top, a
space, one or more non-hyphen characters, then space hyphen space: by
the backtracking semantics of the pattern, it matches exactly when the text
starts with Top and a space, the run up to the first hyphen ends with a
space and has another character before it, and a space follows that hyphen;
the match (everything through that space) is removed. -/
def stripLabelPart (s : String) : String :=
  if strStartsWith s "Top " then
    let rest := s.data.drop 4
    let w := rest.takeWhile (fun c => c != '-')
    if 2 ≤ w.length && w.getLastD 'x' == ' ' &&
        (match rest.drop w.length with
         | '-' :: ' ' :: _ => true
         | _ => false) then
      String.mk (rest.drop (w.length + 2))
    else s
  else s

/-- Embedding of extractDateRange. -/
def extractDateRange (fileName : String) : String := stripLabelPart (stripCsvExt fileName)

/-- The listing step shared by the resolvers: keep the .csv entries of the
directory listing and sort them (Array.prototype.sort without comparator:
lexicographic by code unit, stably - duplicates are equal strings, so any
sorted rearrangement is the same list). -/
def csvFilesOf (files : List String) : List String :=
  List.insertionSort (fun a b => strKey a ≤ strKey b)
    (files.filter (fun f => strEndsWith f ".csv"))

/-- Embedding of resolveFileName. Thrown errors propagate through the
Except value exactly where the source would let the promise reject. -/
def resolveFileName (fs : Fs) (requested : Option String) : Except JsThrown String :=
  match fs.readdir with
  | Except.error e => Except.error e
  | Except.ok files =>
    let csvFiles := csvFilesOf files
    if csvFiles.length = 0 then
      Except.error (JsThrown.errObj "No CSV files found in src/lib/vercel")
    else if truthyStr requested then
      let clean := pathBasename (requested.getD "")
      if !(strEndsWith clean ".csv") then
        Except.error (JsThrown.errObj "fileName must be a .csv file")
      else if !(csvFiles.contains clean) then
        Except.error (JsThrown.errObj ("CSV file not found: " ++ clean))
      else Except.ok clean
    else
      Except.ok (if csvFiles.contains DEFAULT_FILE then DEFAULT_FILE else csvFiles.getLastD "")

/-- Embedding of resolveFileNameByType. -/
def resolveFileNameByType (fs : Fs) (reportType : ReportType) : Except JsThrown String :=
  match fs.readdir with
  | Except.error e => Except.error e
  | Except.ok files =>
    let csvFiles := csvFilesOf files
    let label := toReportLabel reportType
    let found := csvFiles.filter (fun f => strStartsWith f (label ++ " - "))
    if found.length = 0 then
      Except.error (JsThrown.errObj ("No CSV found for reportType '" ++ reportTypeName reportType ++ "'"))
    else Except.ok (found.getLastD "")

/-- Embedding of listAvailableReports. -/
def listAvailableReports (fs : Fs) : Except JsThrown (List String) :=
  match fs.readdir with
  | Except.error e => Except.error e
  | Except.ok files =>
    Except.ok ((csvFilesOf files).map (fun file =>
      inferReportLabel file ++ " | " ++ extractDateRange file ++ " | " ++ file))

/-- Embedding of toNumber: strip commas, trim, convert with Number(), and
coerce every non-finite result to 0. -/
def toNumber (value : String) : ℚ :=
  match jsNumber (jsTrim (stripCommas value)) with
  | JsNum.finite q => q
  | _ => 0

/-- Embedding of parseCsvLine, as a recursion over the character list with
the accumulated current field and the quoted flag. A closing quote at the
very end of the line toggles the flag and the loop then emits the current
field; that last step is written directly as its value so that the
recursion stays structural. -/
def parseCsvLineAux : List Char → List Char → Bool → List (List Char)
  | [], current, _ => [current]
  | c :: rest, current, inQuotes =>
    if c == '"' then
      if inQuotes then
        match rest with
        | c2 :: rest2 =>
          if c2 == '"' then parseCsvLineAux rest2 (current ++ ['"']) true
          else parseCsvLineAux (c2 :: rest2) current false
        | [] => [current]
      else parseCsvLineAux rest current true
    else if c == ',' && !inQuotes then current :: parseCsvLineAux rest [] false
    else parseCsvLineAux rest (current ++ [c]) inQuotes

/-- Embedding of parseCsvLine. -/
def parseCsvLine (line : String) : List String :=
  (parseCsvLineAux line.data [] false).map String.mk

/-- Split a character list at every newline character. -/
def splitOnNewline (cs : List Char) : List (List Char) :=
  cs.foldr (fun c acc =>
    match acc with
    | seg :: segs => if c == '\n' then [] :: seg :: segs else (c :: seg) :: segs
    | [] => [[c]]) [[]]

/-- Drop one trailing carriage return from a segment. -/
def dropTrailingCR (seg : List Char) : List Char :=
  match seg.getLast? with
  | some c => if c == '\r' then seg.dropLast else seg
  | none => seg

/-- Drop the carriage return that preceded the newline of every non-final
segment. -/
def fixCRs : List (List Char) → List (List Char)
  | [] => []
  | [seg] => [seg]
  | seg :: rest => dropTrailingCR seg :: fixCRs rest

/-- Model of content.split on the optional-carriage-return newline
pattern: the separators are a newline optionally preceded by a carriage
return. -/
def jsSplitLines (s : String) : List String :=
  (fixCRs (splitOnNewline s.data)).map String.mk

/-- The pure part of loadRows, applied to the file content: split into
lines, trim, drop blank lines, drop the header, and convert each data line
to a row, skipping rows whose first field is falsy. -/
def loadRowsOfContent (content : String) : List TopPageRow :=
  let lines := ((jsSplitLines content).map jsTrim).filter (fun l => l != "")
  if lines.length ≤ 1 then []
  else
    (lines.drop 1).filterMap (fun line =>
      let fields := parseCsvLine line
      let pageRaw := fields.getD 0 ""
      if pageRaw == "" then none
      else some { item := pageRaw,
                  visitors := toNumber (jsOrStr (fields.get? 1) "0"),
                  total := toNumber (jsOrStr (fields.get? 2) "0") })

/-- Embedding of loadRows. -/
def loadRows (fs : Fs) (fileName : String) : Except JsThrown (List TopPageRow) :=
  match fs.readFile fileName with
  | Except.error e => Except.error e
  | Except.ok content => Except.ok (loadRowsOfContent content)

/-- The sortBy union of the schema. -/
inductive SortField where
  | visitors | total
deriving DecidableEq

/-- String value of a SortField, as rendered in the output. -/
def sortFieldName : SortField → String
  | SortField.visitors => "visitors"
  | SortField.total => "total"

/-- The sortOrder union of the schema. -/
inductive SortOrder where
  | asc | desc
deriving DecidableEq

/-- String value of a SortOrder, as rendered in the output. -/
def sortOrderName : SortOrder → String
  | SortOrder.asc => "asc"
  | SortOrder.desc => "desc"

/-- The input criteria of the tool, from the zod schema: every field
optional. -/
structure Criteria where
  reportType : Option ReportType := none
  fileName : Option String := none
  listReports : Option Bool := none
  pageContains : Option String := none
  startsWith : Option String := none
  minVisitors : Option ℚ := none
  minTotal : Option ℚ := none
  sortBy : Option SortField := none
  sortOrder : Option SortOrder := none
  limit : Option ℚ := none
  includeSummary : Option Bool := none

/-- The empty criteria object: a call with no selection criteria at all. -/
def noCriteria : Criteria := {}

/-- Embedding of the filter callback of getVercelTopPages: the four guards
in source order, each returning false when its filter is provided and the
row fails it. -/
def rowPasses (c : Criteria) (row : TopPageRow) : Bool :=
  if truthyStr c.pageContains &&
      !(strContainsSub (jsToLower row.item) (jsToLower (c.pageContains.getD ""))) then false
  else if truthyStr c.startsWith && !(strStartsWith row.item (c.startsWith.getD "")) then false
  else if c.minVisitors.isSome && decide (row.visitors < c.minVisitors.getD 0) then false
  else if c.minTotal.isSome && decide (row.total < c.minTotal.getD 0) then false
  else true

/-- Sort key selected by the sortBy field. -/
def sortKeyOf (b : SortField) (row : TopPageRow) : ℚ :=
  match b with
  | SortField.visitors => row.visitors
  | SortField.total => row.total

/-- Embedding of the sort comparator of getVercelTopPages: the numeric
difference on the chosen field, negated for descending order. -/
def rowComparator (b : SortField) (o : SortOrder) (x y : TopPageRow) : ℚ :=
  let diff := qSub (sortKeyOf b x) (sortKeyOf b y)
  match o with
  | SortOrder.asc => diff
  | SortOrder.desc => qNeg diff

/-- Embedding of the sort step. Array.prototype.sort with a consistent
comparator is stable and places x no later than y exactly when the
comparator is non-positive on (x, y); insertion sort on that relation
produces the same (unique) sorted stable rearrangement. -/
def sortRows (b : SortField) (o : SortOrder) (rows : List TopPageRow) : List TopPageRow :=
  List.insertionSort (fun x y => rowComparator b o x y ≤ 0) rows

/-- Embedding of the maxRows computation: Math.max(1, Math.min(limit or
20, 200)). -/
def maxRowsOf (limit : Option ℚ) : ℚ := jsMax 1 (jsMin (jsOrNum limit 20) 200)

/-- Embedding of the slice step: take the first maxRows rows. -/
def applyLimit (limit : Option ℚ) (rows : List TopPageRow) : List TopPageRow :=
  rows.take (qToCount (maxRowsOf limit))

/-- Rendering of the ranked row lines. -/
def renderRows (top : List TopPageRow) : List String :=
  top.enum.map (fun p =>
    Nat.repr (p.1 + 1) ++ ". " ++ p.2.item ++ " | Visitors: " ++
      jsNumToLocaleString p.2.visitors ++ " | Total: " ++ jsNumToLocaleString p.2.total)

/-- The pure tail of getVercelTopPages after the rows are loaded: filter,
sort, limit and render. -/
def renderReport (c : Criteria) (selectedFile : String) (rows : List TopPageRow) : String :=
  let initialCount := rows.length
  let filtered := rows.filter (rowPasses c)
  let sortedBy := c.sortBy.getD SortField.visitors
  let order := c.sortOrder.getD SortOrder.desc
  let sorted := sortRows sortedBy order filtered
  let top := applyLimit c.limit sorted
  let reportLabel := inferReportLabel selectedFile
  let dateRange := extractDateRange selectedFile
  if top.length = 0 then
    "No rows match the current filters.\n\nReport: " ++ reportLabel ++ "\nPeriod: " ++
      dateRange ++ "\nFile: " ++ selectedFile ++ "\nRows scanned: " ++ Nat.repr initialCount
  else
    let withSummary := !(c.includeSummary == some false)
    let totalVisitors := filtered.foldl (fun sum row => qAdd sum row.visitors) 0
    let totalVisits := filtered.foldl (fun sum row => qAdd sum row.total) 0
    let summaryLines : List String :=
      if withSummary then
        ["Vercel Analytics Report",
         "Report type: " ++ reportLabel,
         "Period: " ++ dateRange,
         "File: " ++ selectedFile,
         "Rows scanned: " ++ Nat.repr initialCount,
         "Rows matched: " ++ Nat.repr filtered.length,
         "Total visitors (matched): " ++ jsNumToLocaleString totalVisitors,
         "Total visits (matched): " ++ jsNumToLocaleString totalVisits,
         ""]
      else []
    String.intercalate "\n"
      (summaryLines ++
        ["Top " ++ Nat.repr top.length ++ " rows by " ++ sortFieldName sortedBy ++
          " (" ++ sortOrderName order ++ ")", ""] ++
        renderRows top)

/-- The file-selection step of getVercelTopPages: an explicit fileName (a
truthy string) goes through resolveFileName, otherwise the report type
(default pages) goes through resolveFileNameByType. -/
def selectFile (c : Criteria) (fs : Fs) : Except JsThrown String :=
  if truthyStr c.fileName then resolveFileName fs c.fileName
  else resolveFileNameByType fs (c.reportType.getD ReportType.pages)

/-- The body of the try block of getVercelTopPages. -/
def runTool (c : Criteria) (fs : Fs) : Except JsThrown String :=
  if truthyBool c.listReports then
    match listAvailableReports fs with
    | Except.error e => Except.error e
    | Except.ok reports =>
      Except.ok
        (if reports.length = 0 then "No CSV reports found in src/lib/vercel."
         else String.intercalate "\n"
           (["Available Vercel CSV reports:", ""] ++
             reports.enum.map (fun p => Nat.repr (p.1 + 1) ++ ". " ++ p.2)))
  else
    match selectFile c fs with
    | Except.error e => Except.error e
    | Except.ok selectedFile =>
      match loadRows fs selectedFile with
      | Except.error e => Except.error e
      | Except.ok rows => Except.ok (renderReport c selectedFile rows)

/-- Embedding of getVercelTopPages: the try body with its catch boundary,
which converts every thrown value to an error string. -/
def getVercelTopPages (c : Criteria) (fs : Fs) : String :=
  match runTool c fs with
  | Except.ok s => s
  | Except.error e => "Error reading Vercel analytics CSV: " ++ jsThrownMessage e

/-- Stated from the specification text for default resolution (prefer the
configured default filename when present in the listing, otherwise the
lexicographically last .csv file; fail on an empty catalog), for comparison
with what the code does when no criteria are supplied. -/
def specDefaultResolution (files : List String) : Except JsThrown String :=
  let csvFiles := csvFilesOf files
  match csvFiles.getLast? with
  | none => Except.error (JsThrown.errObj "No CSV files found in src/lib/vercel")
  | some lastFile =>
    Except.ok (if csvFiles.contains DEFAULT_FILE then DEFAULT_FILE else lastFile)

/-- Encoder of the round-trip property: double every quote character of a
field. -/
def dblQuoteChars (f : List Char) : List Char :=
  f.foldr (fun c acc => if c == '"' then '"' :: '"' :: acc else c :: acc) []

/-- Encoder of the round-trip property: wrap a field in quotes, doubling
its internal quotes, whenever it contains a comma or a quote. -/
def encodeCsvField (f : List Char) : List Char :=
  if f.any (fun c => c == ',' || c == '"') then '"' :: (dblQuoteChars f ++ ['"'])
  else f

/-- Encoder of the round-trip property: join the encoded fields with
commas. -/
def buildCsvLine (fields : List String) : String :=
  String.mk (List.intercalate [','] (fields.map (fun f => encodeCsvField f.data)))

/-! General lemmas about the embedding. -/

/-- Unfolding of the String constructor. -/
theorem data_mk (l : List Char) : (String.mk l).data = l := rfl

/-- Rebuilding a string from its characters. -/
theorem mk_data (s : String) : String.mk s.data = s := rfl

/-- The kernel-computable addition agrees with the addition of ℚ. -/
theorem qAdd_eq (a b : ℚ) : qAdd a b = a + b := by
  unfold qAdd
  rw [Rat.mkRat_eq_div]
  have ha : ((a.den : ℚ)) ≠ 0 := by positivity
  have hb : ((b.den : ℚ)) ≠ 0 := by positivity
  have h : (((a.num * b.den + b.num * a.den : ℤ) : ℚ)) / ((a.den * b.den : ℕ) : ℚ)
      = (a.num : ℚ) / (a.den : ℚ) + (b.num : ℚ) / (b.den : ℚ) := by
    push_cast
    field_simp
  rw [h, Rat.num_div_den, Rat.num_div_den]

/-- The kernel-computable subtraction agrees with the subtraction of ℚ. -/
theorem qSub_eq (a b : ℚ) : qSub a b = a - b := by
  unfold qSub
  rw [Rat.mkRat_eq_div]
  have ha : ((a.den : ℚ)) ≠ 0 := by positivity
  have hb : ((b.den : ℚ)) ≠ 0 := by positivity
  have h : (((a.num * b.den - b.num * a.den : ℤ) : ℚ)) / ((a.den * b.den : ℕ) : ℚ)
      = (a.num : ℚ) / (a.den : ℚ) - (b.num : ℚ) / (b.den : ℚ) := by
    push_cast
    field_simp
    ring
  rw [h, Rat.num_div_den, Rat.num_div_den]

/-- The kernel-computable negation agrees with the negation of ℚ. -/
theorem qNeg_eq (a : ℚ) : qNeg a = -a := by
  unfold qNeg
  rw [Rat.mkRat_eq_div]
  push_cast
  rw [neg_div, Rat.num_div_den]

/-- Characters surviving the trim were characters of the input. -/
theorem mem_of_mem_trimChars {c : Char} {l : List Char} (h : c ∈ trimChars l) : c ∈ l := by
  unfold trimChars at h
  have h1 := List.mem_reverse.mp h
  have h2 := (List.dropWhile_sublist isJsWhitespace).subset h1
  have h3 := List.mem_reverse.mp h2
  exact (List.dropWhile_sublist isJsWhitespace).subset h3

/-! Claim C4. -/

def scenarioContent : String := "item,visitors,total\n/home,100,150\n/about,50,\"1,200\""

/-- File system of the end-to-end scenario of the specification. -/
def scenarioFs : Fs :=
  { readdir := Except.ok ["Top Pages - Jan 1, 26.csv"],
    readFile := fun f =>
      if f = "Top Pages - Jan 1, 26.csv" then Except.ok scenarioContent
      else Except.error JsThrown.nonError }

/-- C4: for every input criteria object and every outcome of the
file-system operations, including thrown errors, the tool returns a string
and never throws across its boundary: the result is either the successful
payload or the descriptive error string built from the caught value, and a
caught value without a message renders as Unknown error. -/
theorem getVercelTopPages_never_throws :
    (∀ (c : Criteria) (fs : Fs),
      (∃ s, runTool c fs = Except.ok s ∧ getVercelTopPages c fs = s) ∨
      (∃ e, runTool c fs = Except.error e ∧
        getVercelTopPages c fs = "Error reading Vercel analytics CSV: " ++ jsThrownMessage e)) ∧
    jsThrownMessage JsThrown.nonError = "Unknown error" := by
  refine ⟨fun c fs => ?_, rfl⟩
  cases h : runTool c fs with
  | ok s => exact Or.inl ⟨s, rfl, by simp [getVercelTopPages, h]⟩
  | error e => exact Or.inr ⟨e, rfl, by simp [getVercelTopPages, h]⟩

/-! Claim C9. -/

/-- C9: supplying the empty string for pageContains or startsWith imposes
no constraint: the filtered rows equal those with the filter absent,
because the guards test truthiness of the string first and the empty
string is falsy. -/
theorem empty_text_filters_no_constraint :
    ∀ (rows : List TopPageRow) (c : Criteria),
      rows.filter (rowPasses { c with pageContains := some "" }) =
        rows.filter (rowPasses { c with pageContains := none }) ∧
      rows.filter (rowPasses { c with startsWith := some "" }) =
        rows.filter (rowPasses { c with startsWith := none }) := by
  intro rows c
  constructor <;> rfl

/-! Claim C2. -/

/-- Row used to build concrete row lists. -/
def sampleRow : TopPageRow := { item := "/a", visitors := mkRat 1 1, total := mkRat 1 1 }

/-- C2 counterexample: the claim says a requested limit of 0 yields at
most one row; on 25 rows the code renders 20 of them, because limit
short-circuit-or 20 treats 0 as falsy and substitutes the default. -/
theorem limit_zero_counterexample :
    (applyLimit (some 0) (List.replicate 25 sampleRow)).length = 20 ∧
    ¬ (applyLimit (some 0) (List.replicate 25 sampleRow)).length ≤ 1 := by
  decide

/-- C2 (amended): the number of rows rendered is clamped, with the default
applied to an omitted or zero limit: limit -5 yields at most 1 row, limit
10000 at most 200, an omitted limit at most 20, and limit 0 behaves like
the omitted default, at most 20; in general the slice never exceeds the
computed row cap. -/
theorem applyLimit_clamped :
    ∀ rows : List TopPageRow,
      (applyLimit (some (mkRat (-5) 1)) rows).length ≤ 1 ∧
      (applyLimit (some (mkRat 10000 1)) rows).length ≤ 200 ∧
      (applyLimit none rows).length ≤ 20 ∧
      (applyLimit (some 0) rows).length ≤ 20 ∧
      (∀ q, (applyLimit q rows).length ≤ qToCount (maxRowsOf q)) := by
  intro rows
  have hgen : ∀ q, (applyLimit q rows).length ≤ qToCount (maxRowsOf q) := by
    intro q
    unfold applyLimit
    exact List.length_take_le _ _
  refine ⟨?_, ?_, ?_, ?_, hgen⟩
  · exact le_trans (hgen _) (by decide)
  · exact le_trans (hgen _) (by decide)
  · exact le_trans (hgen _) (by decide)
  · exact le_trans (hgen _) (by decide)

/-! Claim C10. -/

/-- C10: the empty-catalog check of resolveFileName runs before any
validation of the requested filename, so with zero .csv entries in the
listing any explicit fileName yields the empty-catalog error, never the
wrong-extension or file-not-found error. -/
theorem resolveFileName_empty_catalog_precedence :
    ∀ (fs : Fs) (files : List String) (requested : String),
      fs.readdir = Except.ok files →
      files.filter (fun f => strEndsWith f ".csv") = [] →
      resolveFileName fs (some requested) =
        Except.error (JsThrown.errObj "No CSV files found in src/lib/vercel") := by
  intro fs files requested hdir hempty
  simp [resolveFileName, hdir, csvFilesOf, hempty]

/-- Listing without .csv entries, for the C10 witness. -/
def fsNoCsv : Fs :=
  { readdir := Except.ok ["readme.md"], readFile := fun _ => Except.error JsThrown.nonError }

/-- C10 witness: a traversal-shaped request with a wrong extension against
an empty catalog still gets the empty-catalog error. -/
theorem resolveFileName_empty_catalog_precedence_witness :
    resolveFileName fsNoCsv (some "../secret.txt") =
      Except.error (JsThrown.errObj "No CSV files found in src/lib/vercel") :=
  resolveFileName_empty_catalog_precedence fsNoCsv ["readme.md"] "../secret.txt" rfl rfl

/-! Claim C7. -/

set_option maxRecDepth 10000

/-- C7: on a directory holding only the scenario file with rows /home
(100, 150) and /about (50, quoted 1,200), a call with no criteria renders
/home before /about, reports 2 matched rows, total visitors 150 and total
visits 1350 (the quoted value coerced to 1200), formatted with thousands
grouping. -/
theorem scenario_end_to_end :
    getVercelTopPages noCriteria scenarioFs =
      "Vercel Analytics Report\nReport type: Top Pages\nPeriod: Jan 1, 26\nFile: Top Pages - Jan 1, 26.csv\nRows scanned: 2\nRows matched: 2\nTotal visitors (matched): 150\nTotal visits (matched): 1,350\n\nTop 2 rows by visitors (desc)\n\n1. /home | Visitors: 100 | Total: 150\n2. /about | Visitors: 50 | Total: 1,200" := by
  decide

/-! Claim C1. -/

/-- Directory holding a single .csv file that matches no report label, for
the C1 counterexample. -/
def fsOnlyCsv : Fs :=
  { readdir := Except.ok ["aaa.csv"],
    readFile := fun f =>
      if f = "aaa.csv" then Except.ok "item,visitors,total\n/x,1,2"
      else Except.error JsThrown.nonError }

/-- C1 counterexample: with one eligible .csv file in the directory, the
claim predicts default resolution succeeds on it (and that the
empty-catalog error appears exactly when there are zero .csv files), but
the call with no criteria returns the no-match-for-pages error: the code
resolves by report type, not by the default-or-last rule. -/
theorem noCriteria_default_resolution_counterexample :
    getVercelTopPages noCriteria fsOnlyCsv =
      "Error reading Vercel analytics CSV: No CSV found for reportType 'pages'" ∧
    specDefaultResolution ["aaa.csv"] = Except.ok "aaa.csv" := by
  exact ⟨by decide, rfl⟩

/-- Membership of the value of getLast?. -/
theorem mem_of_getLast?_eq {α : Type} : ∀ {l : List α} {y : α}, l.getLast? = some y → y ∈ l
  | [], y, h => by simp at h
  | [a], y, h => by
      simp only [List.getLast?_singleton, Option.some.injEq] at h
      simp [h]
  | a :: b :: l, y, h => by
      rw [List.getLast?_cons_cons] at h
      exact List.mem_cons_of_mem a (mem_of_getLast?_eq h)

/-- In a list that is pairwise related by a reflexive relation, every
element is related to the last element. -/
theorem pairwise_rel_getLast? {α : Type} {r : α → α → Prop} (hrefl : ∀ a : α, r a a) :
    ∀ {l : List α}, l.Pairwise r → ∀ x ∈ l, ∀ y, l.getLast? = some y → r x y
  | [], _, x, hx, _, _ => absurd hx (List.not_mem_nil x)
  | [a], _, x, hx, y, hy => by
      simp only [List.mem_singleton] at hx
      simp only [List.getLast?_singleton, Option.some.injEq] at hy
      subst hx
      subst hy
      exact hrefl x
  | a :: b :: l, hp, x, hx, y, hy => by
      rw [List.getLast?_cons_cons] at hy
      rcases List.pairwise_cons.mp hp with ⟨ha, hp2⟩
      rcases List.mem_cons.mp hx with h | h
      · subst h
        exact ha y (mem_of_getLast?_eq hy)
      · exact pairwise_rel_getLast? hrefl hp2 x h y hy

/-- Totality of the string-key order, for sorting file names. -/
instance : IsTotal String (fun a b => strKey a ≤ strKey b) :=
  ⟨fun a b => le_total (strKey a) (strKey b)⟩

/-- Transitivity of the string-key order, for sorting file names. -/
instance : IsTrans String (fun a b => strKey a ≤ strKey b) :=
  ⟨fun _ _ _ h1 h2 => le_trans h1 h2⟩

/-- C1 (amended): when the caller supplies no selection criteria at all,
the engine resolves via report type pages: it returns the
lexicographically last .csv file whose name starts with the prefix
Top Pages followed by space hyphen space, and fails with the
no-match-for-pages error exactly when no .csv file carries that prefix,
even if other .csv files exist. The configured-default-or-last rule lives
only in the unreachable no-request branch of resolveFileName. -/
theorem noCriteria_resolves_by_type_pages :
    ∀ (fs : Fs) (files : List String),
      fs.readdir = Except.ok files →
      selectFile noCriteria fs = resolveFileNameByType fs ReportType.pages ∧
      (resolveFileNameByType fs ReportType.pages =
          Except.error (JsThrown.errObj "No CSV found for reportType 'pages'") ↔
        files.filter (fun f => strEndsWith f ".csv" && strStartsWith f "Top Pages - ") = []) ∧
      (∀ f, resolveFileNameByType fs ReportType.pages = Except.ok f →
        f ∈ files ∧ strEndsWith f ".csv" = true ∧ strStartsWith f "Top Pages - " = true ∧
        ∀ g ∈ files, strEndsWith g ".csv" = true → strStartsWith g "Top Pages - " = true →
          strKey g ≤ strKey f) := by
  intro fs files hdir
  have hres : resolveFileNameByType fs ReportType.pages =
      (if ((csvFilesOf files).filter (fun f => strStartsWith f "Top Pages - ")).length = 0 then
        Except.error (JsThrown.errObj "No CSV found for reportType 'pages'")
      else
        Except.ok (((csvFilesOf files).filter
          (fun f => strStartsWith f "Top Pages - ")).getLastD "")) := by
    unfold resolveFileNameByType
    rw [hdir]
    rfl
  set p : String → Bool := fun f => strStartsWith f "Top Pages - " with hp
  set q : String → Bool := fun f => strEndsWith f ".csv" with hq
  set found : List String := (csvFilesOf files).filter p with hfound
  have hperm : found.Perm (files.filter (fun f => q f && p f)) := by
    have hp1 := List.perm_insertionSort (fun a b => strKey a ≤ strKey b) (files.filter q)
    have hp2 := hp1.filter p
    rw [List.filter_filter] at hp2
    have hcomm : files.filter (fun a => p a && q a) = files.filter (fun f => q f && p f) :=
      List.filter_congr (fun x _ => Bool.and_comm (p x) (q x))
    rw [hcomm] at hp2
    exact hp2
  have hpair : found.Pairwise (fun a b => strKey a ≤ strKey b) :=
    (List.sorted_insertionSort (fun a b => strKey a ≤ strKey b) (files.filter q)).filter p
  refine ⟨rfl, ?_, ?_⟩
  · rw [hres]
    constructor
    · intro h
      by_cases h0 : found.length = 0
      · have hnil : found = [] := List.length_eq_zero.mp h0
        have hlen := hperm.length_eq
        rw [hnil] at hlen
        exact List.length_eq_zero.mp hlen.symm
      · rw [if_neg h0] at h
        exact absurd h (by simp)
    · intro h
      have h0 : found.length = 0 := by
        have hlen := hperm.length_eq
        rw [h] at hlen
        exact hlen
      rw [if_pos h0]
  · intro f hf
    rw [hres] at hf
    by_cases h0 : found.length = 0
    · rw [if_pos h0] at hf
      exact absurd hf (by simp)
    · rw [if_neg h0] at hf
      have hfo : found.getLastD "" = f := by
        injection hf
      have hne : found ≠ [] := fun hnil => h0 (by rw [hnil]; rfl)
      obtain ⟨y, hy⟩ : ∃ y, found.getLast? = some y := by
        cases hlast : found.getLast? with
        | none => exact absurd (List.getLast?_eq_none_iff.mp hlast) hne
        | some y => exact ⟨y, rfl⟩
      have hyf : y = f := by
        rw [List.getLastD_eq_getLast?, hy] at hfo
        exact hfo
      subst hyf
      have hymem : y ∈ found := mem_of_getLast?_eq hy
      have hmem2 : y ∈ files.filter (fun f => q f && p f) := hperm.mem_iff.mp hymem
      have hmem3 := List.mem_filter.mp hmem2
      have hqp : q y = true ∧ p y = true := by
        have h4 := hmem3.2
        simpa using h4
      refine ⟨hmem3.1, hqp.1, hqp.2, ?_⟩
      intro g hg hge hgs
      have hgmem : g ∈ found := by
        apply hperm.mem_iff.mpr
        apply List.mem_filter.mpr
        refine ⟨hg, ?_⟩
        simp [hq, hp, hge, hgs]
      exact pairwise_rel_getLast? (fun a => le_refl (strKey a)) hpair g hgmem y hy

/-- Directory with two pages reports and an unrelated .csv file, for the
C1 witness. -/
def fsPagesPair : Fs :=
  { readdir := Except.ok ["Top Pages - A.csv", "Top Pages - B.csv", "zzz.csv"],
    readFile := fun _ => Except.error JsThrown.nonError }

/-- C1 witness: the characterisation applied to a concrete listing; the
selection step goes through resolve-by-type, which picks the last pages
report, above the other matching name. -/
theorem noCriteria_resolves_by_type_pages_witness :
    selectFile noCriteria fsPagesPair = resolveFileNameByType fsPagesPair ReportType.pages ∧
    strKey "Top Pages - A.csv" ≤ strKey "Top Pages - B.csv" := by
  have h := noCriteria_resolves_by_type_pages fsPagesPair
    ["Top Pages - A.csv", "Top Pages - B.csv", "zzz.csv"] rfl
  refine ⟨h.1, ?_⟩
  have h2 := h.2.2 "Top Pages - B.csv" (by rfl)
  exact h2.2.2.2 "Top Pages - A.csv" (by decide) (by decide) (by decide)

/-! Claim C3. -/

/-- Values of decimal literals are non-negative. -/
theorem decLitVal_nonneg (ip fp : List Char) (e : Int) : 0 ≤ decLitVal ip fp e := by
  cases e with
  | ofNat k =>
    rw [show decLitVal ip fp (Int.ofNat k) =
      mkRat ((digitsVal ip * 10 ^ fp.length + digitsVal fp) * 10 ^ k) (10 ^ fp.length) from rfl]
    apply Rat.mkRat_nonneg
    positivity
  | negSucc k =>
    rw [show decLitVal ip fp (Int.negSucc k) =
      mkRat (digitsVal ip * 10 ^ fp.length + digitsVal fp) (10 ^ fp.length * 10 ^ (k + 1)) from rfl]
    apply Rat.mkRat_nonneg
    positivity

/-- Parsed unsigned decimal literals are non-negative. -/
theorem parseDecLit_nonneg (cs : List Char) (v : ℚ) (h : parseDecLit cs = some v) : 0 ≤ v := by
  unfold parseDecLit at h
  split at h
  · split at h
    · exact absurd h (by simp)
    · rcases Option.map_eq_some'.mp h with ⟨e, _, he⟩
      rw [← he]
      exact decLitVal_nonneg _ _ _
  · split at h
    · exact absurd h (by simp)
    · rcases Option.map_eq_some'.mp h with ⟨e, _, he⟩
      rw [← he]
      exact decLitVal_nonneg _ _ _

/-- Parsed radix literals are non-negative. -/
theorem parseRadixLit_nonneg (cs : List Char) (v : ℚ) (h : parseRadixLit cs = some v) : 0 ≤ v := by
  unfold parseRadixLit at h
  split at h
  · split at h
    · split at h
      · injection h with h2
        rw [← h2]
        exact Rat.mkRat_nonneg (Int.natCast_nonneg _) _
      · exact absurd h (by simp)
    · split at h
      · split at h
        · injection h with h2
          rw [← h2]
          exact Rat.mkRat_nonneg (Int.natCast_nonneg _) _
        · exact absurd h (by simp)
      · split at h
        · split at h
          · injection h with h2
            rw [← h2]
            exact Rat.mkRat_nonneg (Int.natCast_nonneg _) _
          · exact absurd h (by simp)
        · exact absurd h (by simp)
  · exact absurd h (by simp)

/-- Finite values of the unsigned side of a numeric string are
non-negative. -/
theorem jsUnsignedDecSide_nonneg (cs : List Char) (v : ℚ)
    (h : jsUnsignedDecSide cs = JsNum.finite v) : 0 ≤ v := by
  unfold jsUnsignedDecSide at h
  split at h
  · exact absurd h (by simp)
  · split at h
    · rename_i q hq
      injection h with h2
      rw [← h2]
      exact parseDecLit_nonneg _ _ hq
    · exact absurd h (by simp)

/-- Finite values of Number() on an input without a minus sign are
non-negative. -/
theorem jsNumberOfTrimmed_nonneg (cs : List Char) (hm : '-' ∉ cs) (v : ℚ)
    (h : jsNumberOfTrimmed cs = JsNum.finite v) : 0 ≤ v := by
  cases cs with
  | nil =>
    unfold jsNumberOfTrimmed at h
    injection h with h2
    rw [← h2]
  | cons c rest =>
    have h2 : (if c == '+' then jsUnsignedDecSide rest
        else if c == '-' then jsNegNum (jsUnsignedDecSide rest)
        else
          match parseRadixLit (c :: rest) with
          | some q => JsNum.finite q
          | none => jsUnsignedDecSide (c :: rest)) = JsNum.finite v := h
    by_cases hplus : (c == '+') = true
    · rw [if_pos hplus] at h2
      exact jsUnsignedDecSide_nonneg _ _ h2
    · rw [if_neg hplus] at h2
      by_cases hminus : (c == '-') = true
      · rw [beq_iff_eq] at hminus
        subst hminus
        exact absurd (List.mem_cons_self _ rest) hm
      · rw [if_neg hminus] at h2
        split at h2
        · rename_i q hq
          injection h2 with h3
          rw [← h3]
          exact parseRadixLit_nonneg _ _ hq
        · exact jsUnsignedDecSide_nonneg _ _ h2

/-- C3 (amended): numeric coercion is a total function that never raises
and always returns a finite rational, stripping commas and surrounding
white space and coercing non-finite parse results to 0; whenever the input
contains no minus sign the result is non-negative, but negative numeric
text yields a negative value, so the bound zero-or-more fails in
general. -/
theorem toNumber_nonneg_without_minus :
    ∀ s : String, '-' ∉ s.data → 0 ≤ toNumber s := by
  intro s hs
  unfold toNumber jsNumber jsTrim stripCommas
  rw [data_mk, data_mk]
  have hmem : '-' ∉ trimChars (trimChars (s.data.filter (fun c => c != ','))) := by
    intro hm
    exact hs (List.mem_of_mem_filter (mem_of_mem_trimChars (mem_of_mem_trimChars hm)))
  cases hcase : jsNumberOfTrimmed (trimChars (trimChars (s.data.filter (fun c => c != ',')))) with
  | nan => simp
  | posInf => simp
  | negInf => simp
  | finite q => simpa using jsNumberOfTrimmed_nonneg _ hmem q hcase

/-- C3 witness: a comma-grouped numeral without minus sign coerces to a
non-negative value. -/
theorem toNumber_nonneg_without_minus_witness :
    '-' ∉ "1,234".data ∧ 0 ≤ toNumber "1,234" :=
  ⟨by decide, toNumber_nonneg_without_minus "1,234" (by decide)⟩

/-- C3 counterexample: the claim says coercion always returns a value at
least 0, but a negative numeral coerces to a negative value. -/
theorem toNumber_negative_counterexample :
    toNumber "-5" = -5 ∧ toNumber "-5" < 0 := by
  constructor
  · have h : toNumber "-5" = mkRat (-5) 1 := rfl
    rw [h, Rat.mkRat_eq_div]
    norm_num
  · decide

/-! Claim C5. -/

/-- The ascending comparator is non-positive exactly when the keys are in
non-decreasing order. -/
theorem rowComparator_asc_nonpos (b : SortField) (x y : TopPageRow) :
    rowComparator b SortOrder.asc x y ≤ 0 ↔ sortKeyOf b x ≤ sortKeyOf b y := by
  show qSub (sortKeyOf b x) (sortKeyOf b y) ≤ 0 ↔ _
  rw [qSub_eq]
  exact sub_nonpos

/-- The descending comparator is non-positive exactly when the keys are in
non-increasing order. -/
theorem rowComparator_desc_nonpos (b : SortField) (x y : TopPageRow) :
    rowComparator b SortOrder.desc x y ≤ 0 ↔ sortKeyOf b y ≤ sortKeyOf b x := by
  show qNeg (qSub (sortKeyOf b x) (sortKeyOf b y)) ≤ 0 ↔ _
  rw [qNeg_eq, qSub_eq, neg_nonpos]
  exact sub_nonneg

/-- The comparator relation is total. -/
theorem rowComparator_total (b : SortField) (o : SortOrder) (x y : TopPageRow) :
    rowComparator b o x y ≤ 0 ∨ rowComparator b o y x ≤ 0 := by
  cases o with
  | asc =>
    rcases le_total (sortKeyOf b x) (sortKeyOf b y) with h | h
    · exact Or.inl ((rowComparator_asc_nonpos b x y).mpr h)
    · exact Or.inr ((rowComparator_asc_nonpos b y x).mpr h)
  | desc =>
    rcases le_total (sortKeyOf b x) (sortKeyOf b y) with h | h
    · exact Or.inr ((rowComparator_desc_nonpos b y x).mpr h)
    · exact Or.inl ((rowComparator_desc_nonpos b x y).mpr h)

/-- The comparator relation is transitive. -/
theorem rowComparator_trans (b : SortField) (o : SortOrder) (x y z : TopPageRow)
    (h1 : rowComparator b o x y ≤ 0) (h2 : rowComparator b o y z ≤ 0) :
    rowComparator b o x z ≤ 0 := by
  cases o with
  | asc =>
    rw [rowComparator_asc_nonpos] at h1 h2 ⊢
    exact le_trans h1 h2
  | desc =>
    rw [rowComparator_desc_nonpos] at h1 h2 ⊢
    exact le_trans h2 h1

/-- C5: for every row sequence, sort field and direction, the sorted
output is pairwise ordered by the comparator - whose non-positivity means
non-decreasing keys for ascending order and non-increasing keys for
descending order - with no side condition on the sequence; and,
separately, any two rows with equal keys appearing in the input sequence
(as the sublist pair x, y) keep their relative order in the output. -/
theorem sortRows_directional_stable :
    ∀ (b : SortField) (o : SortOrder) (rows : List TopPageRow),
      (sortRows b o rows).Pairwise (fun u v => rowComparator b o u v ≤ 0) ∧
      (∀ u v, (rowComparator b SortOrder.asc u v ≤ 0 ↔ sortKeyOf b u ≤ sortKeyOf b v)) ∧
      (∀ u v, (rowComparator b SortOrder.desc u v ≤ 0 ↔ sortKeyOf b v ≤ sortKeyOf b u)) ∧
      (∀ x y : TopPageRow, List.Sublist [x, y] rows → sortKeyOf b x = sortKeyOf b y →
        List.Sublist [x, y] (sortRows b o rows)) := by
  intro b o rows
  haveI htot : IsTotal TopPageRow (fun u v => rowComparator b o u v ≤ 0) :=
    ⟨fun u v => rowComparator_total b o u v⟩
  haveI htrans : IsTrans TopPageRow (fun u v => rowComparator b o u v ≤ 0) :=
    ⟨fun u v w => rowComparator_trans b o u v w⟩
  refine ⟨?_, rowComparator_asc_nonpos b, rowComparator_desc_nonpos b, ?_⟩
  · exact List.sorted_insertionSort (fun u v => rowComparator b o u v ≤ 0) rows
  · intro x y hsub hkey
    have hxy : rowComparator b o x y ≤ 0 := by
      cases o with
      | asc => exact (rowComparator_asc_nonpos b x y).mpr (le_of_eq hkey)
      | desc => exact (rowComparator_desc_nonpos b x y).mpr (le_of_eq hkey.symm)
    apply List.sublist_insertionSort
    · exact List.Pairwise.cons (fun z hz => by
        rw [List.mem_singleton] at hz
        rw [hz]
        exact hxy) (List.pairwise_singleton _ _)
    · exact hsub

/-- Rows with equal visitors counts, for the C5 witness. -/
def tieRowA : TopPageRow := { item := "/a", visitors := mkRat 5 1, total := mkRat 1 1 }

/-- Second row of the C5 witness tie. -/
def tieRowB : TopPageRow := { item := "/b", visitors := mkRat 5 1, total := mkRat 2 1 }

/-- C5 witness: the theorem applied to a concrete descending sort; the
stability conjunct is instantiated at two rows tied on visitors, which
keep their order. -/
theorem sortRows_directional_stable_witness :
    List.Sublist [tieRowA, tieRowB]
      (sortRows SortField.visitors SortOrder.desc [tieRowA, tieRowB]) :=
  (sortRows_directional_stable SortField.visitors SortOrder.desc
    [tieRowA, tieRowB]).2.2.2 tieRowA tieRowB (List.Sublist.refl _) (by decide)

/-! Claim C8. -/

/-- A chain of early-return guards equals the conjunction of the negated
guards. -/
theorem guard_chain_eq_conj (g1 g2 g3 g4 : Bool) :
    (if g1 then false else if g2 then false else if g3 then false else if g4 then false else true) =
      (!g1 && !g2 && !g3 && !g4) := by
  cases g1 <;> cases g2 <;> cases g3 <;> cases g4 <;> rfl

/-- The filter callback equals the conjunction of its four per-predicate
passes: a row passes exactly when every provided predicate holds for it. -/
theorem rowPasses_eq_conj (c : Criteria) (row : TopPageRow) :
    rowPasses c row =
      (!(truthyStr c.pageContains &&
          !(strContainsSub (jsToLower row.item) (jsToLower (c.pageContains.getD "")))) &&
       !(truthyStr c.startsWith && !(strStartsWith row.item (c.startsWith.getD ""))) &&
       !(c.minVisitors.isSome && decide (row.visitors < c.minVisitors.getD 0)) &&
       !(c.minTotal.isSome && decide (row.total < c.minTotal.getD 0))) := by
  unfold rowPasses
  exact guard_chain_eq_conj _ _ _ _

/-- Criteria c2 provides every filter that c provides, with the same
value, and possibly more. -/
def FilterExtends (c c2 : Criteria) : Prop :=
  (c.pageContains = none ∨ c2.pageContains = c.pageContains) ∧
  (c.startsWith = none ∨ c2.startsWith = c.startsWith) ∧
  (c.minVisitors = none ∨ c2.minVisitors = c.minVisitors) ∧
  (c.minTotal = none ∨ c2.minTotal = c.minTotal)

/-- Rows passing the extended filters pass the original filters. -/
theorem rowPasses_mono {c c2 : Criteria} (h : FilterExtends c c2) (row : TopPageRow)
    (hp : rowPasses c2 row = true) : rowPasses c row = true := by
  rw [rowPasses_eq_conj] at hp ⊢
  obtain ⟨h1, h2, h3, h4⟩ := h
  simp only [Bool.and_eq_true] at hp ⊢
  obtain ⟨⟨⟨p1, p2⟩, p3⟩, p4⟩ := hp
  refine ⟨⟨⟨?_, ?_⟩, ?_⟩, ?_⟩
  · rcases h1 with hn | he
    · simp [hn, truthyStr]
    · rw [← he]
      exact p1
  · rcases h2 with hn | he
    · simp [hn, truthyStr]
    · rw [← he]
      exact p2
  · rcases h3 with hn | he
    · simp [hn]
    · rw [← he]
      exact p3
  · rcases h4 with hn | he
    · simp [hn]
    · rw [← he]
      exact p4

/-- Pointwise implication of Boolean predicates never increases the
length of a filter. -/
theorem length_filter_mono {α : Type} (p q : α → Bool) (h : ∀ a, p a = true → q a = true) :
    ∀ l : List α, (l.filter p).length ≤ (l.filter q).length := by
  intro l
  induction l with
  | nil => simp
  | cons a t ih =>
    by_cases hp : p a = true
    · rw [List.filter_cons_of_pos hp, List.filter_cons_of_pos (h a hp)]
      simpa using ih
    · rw [List.filter_cons_of_neg hp]
      by_cases hq : q a = true
      · rw [List.filter_cons_of_pos hq]
        exact le_trans ih (Nat.le_succ _)
      · rw [List.filter_cons_of_neg hq]
        exact ih

/-- C8: a row is kept exactly when every provided predicate passes
(case-insensitive substring containment on item, case-sensitive prefix
match, and the two numeric thresholds), so the filter is a conjunction;
and it is monotonic: criteria that provide every filter of the original
together with any additional ones never keep more rows. -/
theorem filtering_conjunctive_monotone :
    (∀ (c : Criteria) (row : TopPageRow),
      rowPasses c row =
        (!(truthyStr c.pageContains &&
            !(strContainsSub (jsToLower row.item) (jsToLower (c.pageContains.getD "")))) &&
         !(truthyStr c.startsWith && !(strStartsWith row.item (c.startsWith.getD ""))) &&
         !(c.minVisitors.isSome && decide (row.visitors < c.minVisitors.getD 0)) &&
         !(c.minTotal.isSome && decide (row.total < c.minTotal.getD 0)))) ∧
    (∀ (rows : List TopPageRow) (c c2 : Criteria), FilterExtends c c2 →
      (rows.filter (rowPasses c2)).length ≤ (rows.filter (rowPasses c)).length) := by
  refine ⟨rowPasses_eq_conj, ?_⟩
  intro rows c c2 h
  exact length_filter_mono (rowPasses c2) (rowPasses c) (fun row => rowPasses_mono h row) rows

/-- Criteria with one numeric filter, for the C8 witness. -/
def oneFilterCriteria : Criteria := { minVisitors := some (mkRat 10 1) }

/-- The same criteria with an additional text filter, for the C8
witness. -/
def twoFilterCriteria : Criteria :=
  { minVisitors := some (mkRat 10 1), pageContains := some "alp" }

/-- Rows for the C8 witness. -/
def monotoneRows : List TopPageRow :=
  [{ item := "/alpha", visitors := mkRat 20 1, total := mkRat 1 1 },
   { item := "/beta", visitors := mkRat 30 1, total := mkRat 1 1 }]

/-- C8 witness: adding a text filter to a numeric filter does not increase
the number of kept rows on a concrete sequence. -/
theorem filtering_conjunctive_monotone_witness :
    (monotoneRows.filter (rowPasses twoFilterCriteria)).length ≤
      (monotoneRows.filter (rowPasses oneFilterCriteria)).length :=
  filtering_conjunctive_monotone.2 monotoneRows oneFilterCriteria twoFilterCriteria
    (by constructor <;> simp [oneFilterCriteria, twoFilterCriteria])

/-! Claim C6. -/

/-- Parser step: end of line emits the current field. -/
theorem parse_nil (cur : List Char) (inQ : Bool) : parseCsvLineAux [] cur inQ = [cur] := rfl

/-- Parser step: a quote outside quoted mode toggles it. -/
theorem parse_open_quote (rest cur : List Char) :
    parseCsvLineAux ('"' :: rest) cur false = parseCsvLineAux rest cur true := by
  rw [parseCsvLineAux.eq_def]
  simp

/-- Parser step: a comma outside quoted mode ends the field. -/
theorem parse_comma (rest cur : List Char) :
    parseCsvLineAux (',' :: rest) cur false = cur :: parseCsvLineAux rest [] false := by
  rw [parseCsvLineAux.eq_def]
  simp

/-- Parser step: an ordinary character is accumulated. -/
theorem parse_other {c : Char} (hq : (c == '"') = false) (hcm : (c == ',') = false)
    (rest cur : List Char) (inQ : Bool) :
    parseCsvLineAux (c :: rest) cur inQ = parseCsvLineAux rest (cur ++ [c]) inQ := by
  rw [parseCsvLineAux.eq_def]
  simp only [hq, hcm]
  cases inQ <;> simp

/-- Parser step: inside quoted mode any non-quote character is
accumulated, commas included. -/
theorem parse_other_inq {c : Char} (hq : (c == '"') = false) (rest cur : List Char) :
    parseCsvLineAux (c :: rest) cur true = parseCsvLineAux rest (cur ++ [c]) true := by
  rw [parseCsvLineAux.eq_def]
  simp [hq]

/-- Parser step: a doubled quote inside quoted mode accumulates one
quote. -/
theorem parse_dquote (rest2 cur : List Char) :
    parseCsvLineAux ('"' :: '"' :: rest2) cur true = parseCsvLineAux rest2 (cur ++ ['"']) true := by
  rw [parseCsvLineAux.eq_def]
  simp

/-- Parser step: a closing quote followed by a non-quote character leaves
quoted mode. -/
theorem parse_close_quote {c2 : Char} (hc2 : (c2 == '"') = false) (rest2 cur : List Char) :
    parseCsvLineAux ('"' :: c2 :: rest2) cur true = parseCsvLineAux (c2 :: rest2) cur false := by
  rw [parseCsvLineAux.eq_def]
  simp [hc2]

/-- Parser step: a closing quote at the end of the line emits the current
field. -/
theorem parse_close_quote_nil (cur : List Char) :
    parseCsvLineAux ['"'] cur true = [cur] := by
  rw [parseCsvLineAux.eq_def]
  simp

/-- Consuming a field free of commas and quotes accumulates it
verbatim. -/
theorem parse_unquoted :
    ∀ (f : List Char), (∀ c ∈ f, c ≠ ',' ∧ c ≠ '"') →
      ∀ (cs cur : List Char),
        parseCsvLineAux (f ++ cs) cur false = parseCsvLineAux cs (cur ++ f) false := by
  intro f
  induction f with
  | nil =>
    intro _ cs cur
    simp
  | cons c f2 ih =>
    intro hf cs cur
    obtain ⟨hc1, hc2⟩ := hf c (List.mem_cons_self c f2)
    have hq : (c == '"') = false := beq_eq_false_iff_ne.mpr hc2
    have hcm : (c == ',') = false := beq_eq_false_iff_ne.mpr hc1
    rw [List.cons_append, parse_other hq hcm,
      ih (fun d hd => hf d (List.mem_cons_of_mem c hd)) cs (cur ++ [c]), List.append_assoc]
    rfl

/-- Consuming the quote-doubled image of a field inside quoted mode, up to
the closing quote, accumulates the field verbatim, provided no quote
follows the closing quote. -/
theorem parse_quoted :
    ∀ (f cs cur : List Char), (∀ c, cs.head? = some c → c ≠ '"') →
      parseCsvLineAux (dblQuoteChars f ++ ('"' :: cs)) cur true =
        parseCsvLineAux cs (cur ++ f) false := by
  intro f
  induction f with
  | nil =>
    intro cs cur hcs
    rw [show dblQuoteChars [] = [] from rfl, List.nil_append]
    cases cs with
    | nil =>
      rw [parse_close_quote_nil, parse_nil, List.append_nil]
    | cons c2 rest2 =>
      have hc2 : (c2 == '"') = false := beq_eq_false_iff_ne.mpr (hcs c2 rfl)
      rw [parse_close_quote hc2, List.append_nil]
  | cons c f2 ih =>
    intro cs cur hcs
    by_cases hc : c = '"'
    · subst hc
      rw [show dblQuoteChars ('"' :: f2) = '"' :: '"' :: dblQuoteChars f2 from by
        simp [dblQuoteChars]]
      rw [List.cons_append, List.cons_append, parse_dquote, ih cs (cur ++ ['"']) hcs,
        List.append_assoc]
      rfl
    · have hq : (c == '"') = false := beq_eq_false_iff_ne.mpr hc
      rw [show dblQuoteChars (c :: f2) = c :: dblQuoteChars f2 from by
        simp [dblQuoteChars, hq, hc]]
      rw [List.cons_append, parse_other_inq hq, ih cs (cur ++ [c]) hcs, List.append_assoc]
      rfl

/-- Unfolding of intercalation over at least two chunks. -/
theorem intercalate_comma_cons (x y : List Char) (l : List (List Char)) :
    List.intercalate [','] (x :: y :: l) = x ++ [','] ++ List.intercalate [','] (y :: l) := by
  simp [List.intercalate, List.intersperse]

/-- Splitting of any field of the encoded line: characters of a field
that needs no quoting are safe. -/
theorem encode_safe_chars (f : List Char) (hq : ¬ f.any (fun c => c == ',' || c == '"') = true) :
    ∀ c ∈ f, c ≠ ',' ∧ c ≠ '"' := by
  intro c hc
  have h3 : f.any (fun c => c == ',' || c == '"') = false := by
    revert hq
    cases f.any (fun c => c == ',' || c == '"') <;> simp
  have h4 := List.any_eq_false.mp h3 c hc
  have h5 : ((c == ',') || (c == '"')) = false := by
    revert h4
    cases ((c == ',') || (c == '"')) <;> simp
  rcases Bool.or_eq_false_iff.mp h5 with ⟨hcomma, hquote⟩
  exact ⟨beq_eq_false_iff_ne.mp hcomma, beq_eq_false_iff_ne.mp hquote⟩

/-- Parsing the encoded line of a non-empty field list recovers the
fields, with the first field appended to the accumulated prefix. -/
theorem parse_encoded_line :
    ∀ (rest : List (List Char)) (f cur : List Char),
      parseCsvLineAux (List.intercalate [','] ((f :: rest).map encodeCsvField)) cur false =
        (cur ++ f) :: rest := by
  intro rest
  induction rest with
  | nil =>
    intro f cur
    rw [show (f :: ([] : List (List Char))).map encodeCsvField = [encodeCsvField f] from rfl]
    rw [show List.intercalate [','] [encodeCsvField f] = encodeCsvField f from by
      simp [List.intercalate]]
    by_cases hq : f.any (fun c => c == ',' || c == '"') = true
    · rw [show encodeCsvField f = '"' :: (dblQuoteChars f ++ ['"']) from by
        simp [encodeCsvField, hq]]
      rw [parse_open_quote]
      rw [show (dblQuoteChars f ++ ['"'] : List Char) = dblQuoteChars f ++ ('"' :: []) from rfl]
      rw [parse_quoted f [] cur (by intro c h; simp at h), parse_nil]
    · rw [show encodeCsvField f = f from by simp [encodeCsvField, hq]]
      have h2 := parse_unquoted f (encode_safe_chars f hq) [] cur
      rw [List.append_nil] at h2
      rw [h2, parse_nil]
  | cons g rest2 ih =>
    intro f cur
    rw [show (f :: g :: rest2).map encodeCsvField =
      encodeCsvField f :: encodeCsvField g :: rest2.map encodeCsvField from rfl]
    rw [intercalate_comma_cons, List.append_assoc]
    have htail : parseCsvLineAux
        ([','] ++ List.intercalate [','] (encodeCsvField g :: rest2.map encodeCsvField))
        (cur ++ f) false = (cur ++ f) :: g :: rest2 := by
      rw [show ([','] ++ List.intercalate [','] (encodeCsvField g :: rest2.map encodeCsvField)
          : List Char) =
        ',' :: List.intercalate [','] (encodeCsvField g :: rest2.map encodeCsvField) from rfl]
      rw [parse_comma]
      rw [show (encodeCsvField g :: rest2.map encodeCsvField) =
        (g :: rest2).map encodeCsvField from rfl]
      rw [ih g []]
      rw [List.nil_append]
    by_cases hq : f.any (fun c => c == ',' || c == '"') = true
    · rw [show encodeCsvField f = '"' :: (dblQuoteChars f ++ ['"']) from by
        simp [encodeCsvField, hq]]
      rw [List.cons_append, parse_open_quote, List.append_assoc]
      rw [show ((['"'] : List Char) ++
          ([','] ++ List.intercalate [','] (encodeCsvField g :: rest2.map encodeCsvField))) =
        '"' :: ([','] ++ List.intercalate [','] (encodeCsvField g :: rest2.map encodeCsvField))
        from rfl]
      rw [parse_quoted f _ cur (by intro c h; injection h with h2; rw [← h2]; decide)]
      exact htail
    · rw [show encodeCsvField f = f from by simp [encodeCsvField, hq]]
      rw [parse_unquoted f (encode_safe_chars f hq) _ cur]
      exact htail

/-- C6 (amended): for every non-empty list of field strings, parsing the
line built by joining them with commas, wrapping any field containing a
comma or quote in double quotes with internal quotes doubled, reproduces
exactly the original fields. The empty list is excluded: its encoded line
is empty and parses to one empty field. -/
theorem parseCsvLine_roundTrip :
    ∀ fields : List String, fields ≠ [] →
      parseCsvLine (buildCsvLine fields) = fields := by
  intro fields hne
  cases fields with
  | nil => exact absurd rfl hne
  | cons f rest =>
    unfold parseCsvLine buildCsvLine
    rw [data_mk]
    rw [show (f :: rest).map (fun s => encodeCsvField s.data) =
      ((f.data) :: rest.map String.data).map encodeCsvField from by
        rw [show ((f.data) :: rest.map String.data) = (f :: rest).map String.data from rfl,
          List.map_map]
        rfl]
    rw [parse_encoded_line (rest.map String.data) f.data []]
    rw [List.nil_append]
    rw [show (f.data :: rest.map String.data).map String.mk =
      f :: (rest.map String.data).map String.mk from rfl]
    rw [List.map_map]
    rw [show rest.map (String.mk ∘ String.data) = rest.map id from
      List.map_congr_left (fun s _ => rfl)]
    rw [List.map_id]

/-- C6 witness: a concrete round trip through fields containing commas,
quotes and the empty string. -/
theorem parseCsvLine_roundTrip_witness :
    parseCsvLine (buildCsvLine ["a,b", "say \"hi\"", "", "plain"]) =
      ["a,b", "say \"hi\"", "", "plain"] :=
  parseCsvLine_roundTrip ["a,b", "say \"hi\"", "", "plain"] (by decide)

/-- C6 counterexample: for the empty field list the claim fails: the built
line is empty and parses to the single-element list holding the empty
field, not to the empty list. -/
theorem parseCsvLine_roundTrip_empty_counterexample :
    parseCsvLine (buildCsvLine []) = [""] ∧ (([""] : List String) ≠ []) := by
  exact ⟨rfl, by decide⟩
